import Mathlib

/- Verification of the teamB_LLM vector-RAG pipeline
   (teamB_LLM/models.py, teamB_LLM/services.py, teamB_LLM/views.py).

   The embedding models the Django ORM as an explicit record store `DB`,
   Django's `transaction.atomic` as an all-or-nothing write (a persistence
   failure injected anywhere inside the block leaves the document table
   unchanged), and the external collaborators (SentenceTransformer,
   RecursiveCharacterTextSplitter from langchain, pgvector's L2Distance
   operator, requests + BeautifulSoup fetching, Python float formatting)
   as function parameters: the claims under study do not depend on their
   internals, only on how services.py composes them. -/

namespace TeamB

/-- Lifecycle status of a `DataSource`, models `DataSource.STATUS_CHOICES`
in models.py (lines 34-39): pending, processing, completed, failed. -/
inductive Status
  | pending
  | processing
  | completed
  | failed
deriving DecidableEq, Repr

/-- Models the `DataSource` Django model (models.py lines 27-51).
`history` is a ghost field recording, in order, every status value the row
has held (its creation status followed by each saved update); it exists
only to state lifecycle claims and is written exactly where the Python
code sets `status`. -/
structure DataSource where
  id : Nat
  name : String
  source_type : String
  url : String
  status : Status
  document_count : Nat
  history : List Status
deriving DecidableEq, Repr

/-- Models the `Document` Django model (models.py lines 52-64): one chunk,
owned via the `source` foreign key. `source_type` and `origin` model the
JSON `metadata` entries that ingestion writes (`source_type` tag plus the
per-document origin: file metadata for github, the URL for web). -/
structure Document where
  source : Nat
  content : String
  embedding : List ℚ
  source_type : String
  origin : String
  chunk_index : Nat
deriving DecidableEq, Repr

/-- The relational store: the `DataSource` table, the `Document` table and
the next fresh primary key. -/
structure DB where
  sources : List DataSource
  documents : List Document
  nextId : Nat
deriving DecidableEq, Repr

/-- One acquired raw document before chunking: its text and its origin
metadata (a langchain `Document`, services.py lines 66 and 152-159). -/
structure RawDoc where
  page_content : String
  origin : String
deriving DecidableEq, Repr

/-- Models `DataSource.objects.create(...)` with an explicit `status`
argument (services.py lines 49-55 and 123-128, views.py lines 169-174 and
207-211): inserts a fresh row whose ghost history starts at the creation
status, returns the new id. -/
def createDataSource (db : DB) (name source_type url : String) (st : Status) :
    DB × Nat :=
  ({ db with
      sources := db.sources ++ [⟨db.nextId, name, source_type, url, st, 0, [st]⟩],
      nextId := db.nextId + 1 },
   db.nextId)

/-- Update the row with id `sid` by `g` (models mutating a fetched model
instance and calling `.save()`). -/
def updSource (db : DB) (sid : Nat) (g : DataSource → DataSource) : DB :=
  { db with sources := db.sources.map fun s => if s.id = sid then g s else s }

/-- Models `data_source.status = st; data_source.save()`
(services.py lines 112-113 and 195-196, views.py lines 180-181). -/
def setStatus (db : DB) (sid : Nat) (st : Status) : DB :=
  updSource db sid fun s => { s with status := st, history := s.history ++ [st] }

/-- Models the success-path save `data_source.status = 'completed';
data_source.document_count = n; data_source.save()`
(services.py lines 96-99 and 186-189). -/
def completeSource (db : DB) (sid : Nat) (n : Nat) : DB :=
  updSource db sid fun s =>
    { s with status := Status.completed, document_count := n,
             history := s.history ++ [Status.completed] }

/-- Models `DataSource.objects.get(id=sid)`: the row with primary key
`sid`, if any. -/
def getSource (db : DB) (sid : Nat) : Option DataSource :=
  db.sources.find? fun s => s.id = sid

/-- Number of `Document` rows whose `source` foreign key is `sid`
(models `source.documents.count()`, services.py line 278). -/
def countChunks (db : DB) (sid : Nat) : Nat :=
  (db.documents.filter fun d => d.source = sid).length

/-- The chunk rows staged for ONE acquired document (services.py lines
80-93 and 170-183): split its text, then `for i, chunk in
enumerate(chunks)` build a `Document` row with `chunk_index = i` — the
index restarts at 0 for every document. `split` models
`RecursiveCharacterTextSplitter.split_documents`, `embed` models
`generate_embedding` (both external collaborators). -/
def perDocChunks (split : String → List String) (embed : String → List ℚ)
    (tag : String) (sid : Nat) (d : RawDoc) : List Document :=
  (split d.page_content).enum.map fun ic =>
    ⟨sid, ic.2, embed ic.2, tag, d.origin, ic.1⟩

/-- All chunk rows staged for a run: the `for doc in documents` loop body
(services.py lines 71-94 and 168-184), document by document. -/
def stageChunks (split : String → List String) (embed : String → List ℚ)
    (tag : String) (sid : Nat) : List RawDoc → List Document
  | [] => []
  | d :: ds => perDocChunks split embed tag sid d ++ stageChunks split embed tag sid ds

/-- Fault injection for the `with transaction.atomic()` block: `some j`
with `j < staged` means the j-th `Document.objects.create` raises, `some
j` with `j = staged` means the final `data_source.save()` inside the block
raises; larger values and `none` mean the block commits. -/
def persistenceFails (failAt : Option Nat) (staged : Nat) : Bool :=
  match failAt with
  | some j => decide (j ≤ staged)
  | none => false

/-- The `with transaction.atomic():` block shared verbatim by both
ingestion methods (services.py lines 70-99 and 167-189) together with the
failure branch that follows it (lines 110-115 and 194-197): if a
persistence fault is injected anywhere inside the block, the whole block
rolls back (the document table is exactly the pre-block table), the
`except` branch saves `status = 'failed'` and the error is re-raised;
otherwise every staged chunk row commits and the source row is saved as
`'completed'` with the count. -/
def atomicPersist (db1 : DB) (sid : Nat) (staged : List Document)
    (failAt : Option Nat) : DB × Except String Nat :=
  if persistenceFails failAt staged.length then
    (setStatus db1 sid Status.failed, Except.error "persistence error")
  else
    (completeSource { db1 with documents := db1.documents ++ staged } sid
      staged.length,
     Except.ok staged.length)

/-- Models `VectorRAGService.ingest_github_repo` (services.py lines
36-115). `cloneResult` models `git.Repo.clone_from` plus the
`DirectoryLoader`: either an acquisition error or the list of loaded
documents (each already tagged with github metadata, lines 72-77). On an
acquisition error the `except` branch (lines 106-115) saves
`status = 'failed'` and re-raises; otherwise the staged chunks go through
the atomic block. Returns the updated store and either the persisted
chunk count or the propagated error. -/
def ingest_github_repo (db : DB) (split : String → List String)
    (embed : String → List ℚ) (repo_url repo_name : String)
    (cloneResult : Except String (List RawDoc)) (failAt : Option Nat) :
    DB × Except String Nat :=
  let created := createDataSource db repo_name "github" repo_url Status.processing
  let db1 := created.1
  let sid := created.2
  match cloneResult with
  | Except.error e => (setStatus db1 sid Status.failed, Except.error e)
  | Except.ok docs =>
      atomicPersist db1 sid (stageChunks split embed "github" sid docs) failAt

/-- Whitespace in the sense of Python's `str.strip` (the characters that
occur in scraped text). -/
def isSpaceChar (c : Char) : Bool :=
  c = ' ' ∨ c = '\t' ∨ c = '\n' ∨ c = '\r'

/-- Python `str.strip()` on a character list: drop leading and trailing
whitespace. -/
def trimChars (l : List Char) : List Char :=
  ((l.dropWhile isSpaceChar).reverse.dropWhile isSpaceChar).reverse

/-- Python `str.splitlines()` on a character list: cut at every newline.
(Python omits a trailing empty line where this keeps it; the difference is
invisible below because empty pieces are filtered out.) -/
def splitLinesChars : List Char → List (List Char)
  | [] => [[]]
  | c :: rest =>
    if c = '\n' then [] :: splitLinesChars rest
    else
      match splitLinesChars rest with
      | [] => [[c]]
      | h :: t => (c :: h) :: t

/-- Python `line.split("  ")` on a character list: cut at every
non-overlapping occurrence of two consecutive spaces, scanning left to
right. -/
def splitDoubleSpace : List Char → List (List Char)
  | [] => [[]]
  | ' ' :: ' ' :: rest => [] :: splitDoubleSpace rest
  | c :: rest =>
    match splitDoubleSpace rest with
    | [] => [[c]]
    | h :: t => (c :: h) :: t

/-- The whitespace cleanup applied to scraped page text (services.py lines
146-149): strip each line, split lines on double spaces, strip the
phrases, join the nonempty ones with single spaces. -/
def cleanText (text : String) : String :=
  let lines := (splitLinesChars text.data).map trimChars
  let pieces := lines.flatMap fun line => (splitDoubleSpace line).map trimChars
  String.intercalate " " ((pieces.filter fun c => c ≠ []).map fun l => String.mk l)

/-- The per-URL acquisition loop of `ingest_web_documents` (services.py
lines 131-163). `fetch` models `requests.get` + `raise_for_status` +
BeautifulSoup text extraction for one URL: an exception or the raw page
text. The per-URL `try`/`except` turns any per-URL exception into a
`continue` (the URL is skipped), and a document is kept only when the
cleaned text is nonempty (line 151). -/
def acquireWebDocuments (urls : List String)
    (fetch : String → Except String String) : List RawDoc :=
  urls.filterMap fun url =>
    match fetch url with
    | Except.error _ => none
    | Except.ok raw =>
        let text := cleanText raw
        if text = "" then none else some ⟨text, url⟩

/-- Models `VectorRAGService.ingest_web_documents` (services.py lines
117-197): create the source row in `'processing'`, run the per-URL
acquisition loop, then push the staged chunks through the atomic block;
the `except` branch (lines 193-197) and the success save mirror the
github path. -/
def ingest_web_documents (db : DB) (split : String → List String)
    (embed : String → List ℚ) (urls : List String) (name : String)
    (fetch : String → Except String String) (failAt : Option Nat) :
    DB × Except String Nat :=
  let created := createDataSource db name "web" "" Status.processing
  let db1 := created.1
  let sid := created.2
  atomicPersist db1 sid
    (stageChunks split embed "web" sid (acquireWebDocuments urls fetch)) failAt

/-- One entry of the list `search_documents` returns (services.py lines
215-226): content plus the metadata the code attaches. -/
structure SearchResult where
  page_content : String
  source_id : Nat
  source_name : String
  source_type : String
  distance : ℚ
  similarity_score : ℚ
deriving DecidableEq, Repr

/-- `doc.source.name` through the foreign key (services.py line 222). -/
def sourceNameOf (db : DB) (sid : Nat) : String :=
  match getSource db sid with
  | some s => s.name
  | none => "Unknown source"

/-- Ordering of annotated rows by the computed `distance` column. -/
def distanceLE (a b : Document × ℚ) : Prop := a.2 ≤ b.2

instance : DecidableRel distanceLE :=
  fun a b => inferInstanceAs (Decidable (a.2 ≤ b.2))

instance : IsTotal (Document × ℚ) distanceLE :=
  ⟨fun a b => le_total a.2 b.2⟩

instance : IsTrans (Document × ℚ) distanceLE :=
  ⟨fun _ _ _ h1 h2 => le_trans h1 h2⟩

/-- Models `VectorRAGService.search_documents` (services.py lines
199-228): annotate every `Document` row with
`L2Distance(embedding, query_embedding)` (the operator itself is
pgvector's, modelled by the parameter `l2`), keep rows with
`distance < similarity_threshold`, order by distance ascending, take the
first `k`, and build the result records with
`similarity_score = 1 - distance` (line 224, no clamping). -/
def search_documents (db : DB) (l2 : List ℚ → List ℚ → ℚ)
    (query_embedding : List ℚ) (k : Nat) (similarity_threshold : ℚ) :
    List SearchResult :=
  let annotated := db.documents.map fun d => (d, l2 d.embedding query_embedding)
  let filtered := annotated.filter fun p => p.2 < similarity_threshold
  let ordered := List.insertionSort distanceLE filtered
  let top := ordered.take k
  top.map fun p =>
    ⟨p.1.content, p.1.source, sourceNameOf db p.1.source, p.1.source_type,
     p.2, 1 - p.2⟩

/-- The exact sentinel returned when retrieval yields nothing
(services.py line 236). -/
def insufficientMessage : String :=
  "I don\x27t have enough information in my knowledge base to answer that question. Please add some documents or repositories first."

/-- Python `min` over a nonempty sequence (services.py line 258); the
empty case is unreachable where it is used. -/
def listMin : List ℚ → ℚ
  | [] => 0
  | x :: xs => xs.foldl min x

/-- Python `max` over a nonempty sequence (services.py line 258). -/
def listMax : List ℚ → ℚ
  | [] => 0
  | x :: xs => xs.foldl max x

/-- The label part of one excerpt (services.py line 246, everything of
the f-string before the content): rank, source type
(`metadata.get('source_type')`), source name and formatted similarity.
`fmt` models the `:.2f` float formatting. -/
def contextLabel (fmt : ℚ → String) (i : Nat) (d : SearchResult) : String :=
  "[Source " ++ toString (i + 1) ++ " - " ++ d.source_type ++ " (" ++ d.source_name
    ++ ") - Similarity: " ++ fmt d.similarity_score ++ "]: "

/-- One labeled excerpt (services.py lines 240-247): the label followed by
the content cut to its first 800 characters (`page_content[:800]`; Python
slices by code points, as does `String.take`). -/
def contextPart (fmt : ℚ → String) (i : Nat) (d : SearchResult) : String :=
  contextLabel fmt i d ++ d.page_content.take 800

/-- The nonempty-retrieval response body (services.py lines 239-258): the
excerpts joined by blank lines inside the fixed f-string template, whose
footer names the query, the section count and the min/max similarity. -/
def composeBody (fmt : ℚ → String) (query : String) (docs : List SearchResult) :
    String :=
  let context := String.intercalate "\n\n" (docs.enum.map fun p => contextPart fmt p.1 p.2)
  let scores := docs.map fun d => d.similarity_score
  "Based on the available documents, here\x27s what I found relevant to your question:\n\n"
    ++ context
    ++ "\n\n**Summary**: The information above should help answer your question about: \""
    ++ query
    ++ "\"\n\n**Sources**: Found " ++ toString docs.length
    ++ " relevant document sections from your knowledge base with similarity scores ranging from "
    ++ fmt (listMin scores) ++ " to " ++ fmt (listMax scores) ++ "."

/-- Models `VectorRAGService.generate_response` (services.py lines
230-260): retrieve with `k = 3` under the configured threshold; if
nothing came back return the fixed sentinel, otherwise assemble the
deterministic template. -/
def generate_response (db : DB) (l2 : List ℚ → List ℚ → ℚ)
    (embed : String → List ℚ) (fmt : ℚ → String)
    (similarity_threshold : ℚ) (query : String) : String :=
  let docs := search_documents db l2 (embed query) 3 similarity_threshold
  if docs.isEmpty then insufficientMessage
  else composeBody fmt query docs

/-- Models `VectorRAGService.delete_source_documents` (services.py lines
274-282): fetch the source (`DoesNotExist` becomes the raised
`ValueError`, the spec's NotFoundError), count its documents, delete
exactly those rows, return the count. -/
def delete_source_documents (db : DB) (source_id : Nat) :
    Except String (DB × Nat) :=
  match getSource db source_id with
  | none =>
      Except.error ("Data source with id " ++ toString source_id ++ " not found")
  | some _ =>
      let deleted_count := countChunks db source_id
      Except.ok
        ({ db with documents := db.documents.filter fun d => ¬ d.source = source_id },
         deleted_count)

/-- Models the HTTP handler `ingest_github_repo` in views.py (lines
152-192): it creates its OWN `DataSource` row in `'processing'` (lines
169-174), then calls the service — which creates a second row — and on
success answers with the handler row's id and the service's count; on a
service error it marks only the handler row `'failed'`. -/
def view_ingest_github_repo (db : DB) (split : String → List String)
    (embed : String → List ℚ) (repo_url repo_name : String)
    (cloneResult : Except String (List RawDoc)) (failAt : Option Nat) :
    DB × Except String (Nat × Nat) :=
  let created := createDataSource db repo_name "github" repo_url Status.processing
  let db1 := created.1
  let aid := created.2
  let run := ingest_github_repo db1 split embed repo_url repo_name cloneResult failAt
  match run.2 with
  | Except.error e => (setStatus run.1 aid Status.failed, Except.error e)
  | Except.ok n => (run.1, Except.ok (aid, n))

/-- Models the HTTP handler `ingest_web_documents` in views.py (lines
194-228): creates its own `'processing'` row (lines 207-211), calls the
service, and on success answers with that row's id and the service's
count; on a service error it returns the error without touching its row. -/
def view_ingest_web_documents (db : DB) (split : String → List String)
    (embed : String → List ℚ) (urls : List String) (name : String)
    (fetch : String → Except String String) (failAt : Option Nat) :
    DB × Except String (Nat × Nat) :=
  let created := createDataSource db name "web" "" Status.processing
  let db1 := created.1
  let aid := created.2
  let run := ingest_web_documents db1 split embed urls name fetch failAt
  match run.2 with
  | Except.error e => (run.1, Except.error e)
  | Except.ok n => (run.1, Except.ok (aid, n))

/-- A well-formed store: every existing row's id is below the fresh-id
counter, so a newly created `DataSource` id collides with no existing
source row and owns no pre-existing chunk row. -/
def WFdb (db : DB) : Prop :=
  (∀ s ∈ db.sources, s.id < db.nextId) ∧ (∀ d ∈ db.documents, d.source < db.nextId)

/-- The status column of the row with id `sid`, if the row exists. -/
def statusOf (db : DB) (sid : Nat) : Option Status :=
  (getSource db sid).map fun s => s.status

/-- The ghost status history of the row with id `sid`, if the row exists. -/
def historyOf (db : DB) (sid : Nat) : Option (List Status) :=
  (getSource db sid).map fun s => s.history

/-- The document-count column of the row with id `sid`, if the row exists. -/
def docCountOf (db : DB) (sid : Nat) : Option Nat :=
  (getSource db sid).map fun s => s.document_count

section Lemmas

lemma find?_upd_self (l : List DataSource) (sid : Nat)
    (g : DataSource → DataSource) (hg : ∀ s, (g s).id = s.id) :
    (l.map fun s => if s.id = sid then g s else s).find? (fun s => s.id = sid)
      = (l.find? fun s => s.id = sid).map g := by
  induction l with
  | nil => rfl
  | cons a l ih =>
    by_cases h : a.id = sid
    · have hga : (if a.id = sid then g a else a) = g a := if_pos h
      rw [List.map_cons, hga,
          List.find?_cons_of_pos _ (by simp [hg, h]),
          List.find?_cons_of_pos _ (by simp [h])]
      rfl
    · have hga : (if a.id = sid then g a else a) = a := if_neg h
      rw [List.map_cons, hga,
          List.find?_cons_of_neg _ (by simp [h]),
          List.find?_cons_of_neg _ (by simp [h]), ih]

lemma find?_upd_other (l : List DataSource) (sid sid' : Nat)
    (g : DataSource → DataSource) (hg : ∀ s, (g s).id = s.id)
    (hne : sid' ≠ sid) :
    (l.map fun s => if s.id = sid then g s else s).find? (fun s => s.id = sid')
      = l.find? (fun s => s.id = sid') := by
  induction l with
  | nil => rfl
  | cons a l ih =>
    by_cases h : a.id = sid
    · have hga : (if a.id = sid then g a else a) = g a := if_pos h
      have hns : ¬ (sid = sid') := fun hh => hne hh.symm
      rw [List.map_cons, hga,
          List.find?_cons_of_neg _ (by simp [hg, h, hns]),
          List.find?_cons_of_neg _ (by simp [h, hns]), ih]
    · have hga : (if a.id = sid then g a else a) = a := if_neg h
      by_cases h' : a.id = sid'
      · rw [List.map_cons, hga,
            List.find?_cons_of_pos _ (by simp [h']),
            List.find?_cons_of_pos _ (by simp [h'])]
      · rw [List.map_cons, hga,
            List.find?_cons_of_neg _ (by simp [h']),
            List.find?_cons_of_neg _ (by simp [h']), ih]

lemma getSource_setStatus_self (db : DB) (sid : Nat) (st : Status) :
    getSource (setStatus db sid st) sid
      = (getSource db sid).map fun s =>
          { s with status := st, history := s.history ++ [st] } := by
  unfold getSource setStatus updSource
  exact find?_upd_self _ _ _ fun s => rfl

lemma getSource_completeSource_self (db : DB) (sid : Nat) (n : Nat) :
    getSource (completeSource db sid n) sid
      = (getSource db sid).map fun s =>
          { s with status := Status.completed, document_count := n,
                   history := s.history ++ [Status.completed] } := by
  unfold getSource completeSource updSource
  exact find?_upd_self _ _ _ fun s => rfl

lemma getSource_create (db : DB) (n t u : String) (st : Status)
    (h : ∀ s ∈ db.sources, s.id < db.nextId) :
    getSource (createDataSource db n t u st).1 db.nextId
      = some ⟨db.nextId, n, t, u, st, 0, [st]⟩ := by
  unfold getSource createDataSource
  rw [List.find?_append]
  have h1 : db.sources.find? (fun s => s.id = db.nextId) = none := by
    apply List.find?_eq_none.mpr
    intro s hs
    simp only [decide_eq_true_eq]
    exact Nat.ne_of_lt (h s hs)
  rw [h1]
  simp [List.find?]

lemma getSource_create_other (db : DB) (n t u : String) (st : Status)
    (sid : Nat) (hne : sid ≠ db.nextId) :
    getSource (createDataSource db n t u st).1 sid = getSource db sid := by
  unfold getSource createDataSource
  rw [List.find?_append]
  cases h : db.sources.find? (fun s => s.id = sid) with
  | none =>
    simp only [Option.none_or]
    rw [List.find?_cons_of_neg _ (by simp; exact fun hh => hne hh.symm)]
    rfl
  | some s => simp [Option.or]

lemma countChunks_updSource (db : DB) (sid : Nat) (g : DataSource → DataSource)
    (sid' : Nat) :
    countChunks (updSource db sid g) sid' = countChunks db sid' := rfl

lemma countChunks_append (db : DB) (staged : List Document) (sid : Nat)
    (hall : ∀ c ∈ staged, c.source = sid) :
    countChunks { db with documents := db.documents ++ staged } sid
      = countChunks db sid + staged.length := by
  unfold countChunks
  simp only [List.filter_append, List.length_append]
  have : staged.filter (fun d => d.source = sid) = staged := by
    apply List.filter_eq_self.mpr
    intro a ha
    simp [hall a ha]
  rw [this]

lemma countChunks_fresh (db : DB) (h : ∀ d ∈ db.documents, d.source < db.nextId) :
    countChunks db db.nextId = 0 := by
  unfold countChunks
  rw [List.length_eq_zero]
  apply List.filter_eq_nil_iff.mpr
  intro d hd
  simp only [decide_eq_true_eq]
  exact Nat.ne_of_lt (h d hd)

lemma stageChunks_source (split : String → List String) (embed : String → List ℚ)
    (tag : String) (sid : Nat) :
    ∀ docs, ∀ c ∈ stageChunks split embed tag sid docs, c.source = sid := by
  intro docs
  induction docs with
  | nil => intro c hc; simp [stageChunks] at hc
  | cons d ds ih =>
    intro c hc
    unfold stageChunks at hc
    rcases List.mem_append.mp hc with h | h
    · unfold perDocChunks at h
      obtain ⟨ic, _, rfl⟩ := List.mem_map.mp h
      rfl
    · exact ih c h

lemma atomicPersist_fail (db1 : DB) (sid : Nat) (staged : List Document)
    (failAt : Option Nat) (h : persistenceFails failAt staged.length = true) :
    atomicPersist db1 sid staged failAt
      = (setStatus db1 sid Status.failed, Except.error "persistence error") := by
  unfold atomicPersist
  rw [if_pos h]

lemma atomicPersist_ok (db1 : DB) (sid : Nat) (staged : List Document)
    (failAt : Option Nat) (h : persistenceFails failAt staged.length = false) :
    atomicPersist db1 sid staged failAt
      = (completeSource { db1 with documents := db1.documents ++ staged } sid
           staged.length,
         Except.ok staged.length) := by
  unfold atomicPersist
  rw [if_neg (by simp [h])]

lemma countChunks_create (db : DB) (n t u : String) (st : Status) (sid : Nat) :
    countChunks (createDataSource db n t u st).1 sid = countChunks db sid := rfl

lemma persist_fail_state (db : DB) (name ty url : String)
    (staged : List Document) (failAt : Option Nat)
    (hWF : WFdb db) (_hstaged : ∀ c ∈ staged, c.source = db.nextId)
    (hfail : persistenceFails failAt staged.length = true) :
    (atomicPersist (createDataSource db name ty url Status.processing).1
        db.nextId staged failAt).2 = Except.error "persistence error" ∧
    countChunks (atomicPersist (createDataSource db name ty url Status.processing).1
        db.nextId staged failAt).1 db.nextId = 0 ∧
    statusOf (atomicPersist (createDataSource db name ty url Status.processing).1
        db.nextId staged failAt).1 db.nextId = some Status.failed ∧
    historyOf (atomicPersist (createDataSource db name ty url Status.processing).1
        db.nextId staged failAt).1 db.nextId
      = some [Status.processing, Status.failed] := by
  rw [atomicPersist_fail _ _ _ _ hfail]
  refine ⟨rfl, ?_, ?_, ?_⟩
  · show countChunks (setStatus _ db.nextId Status.failed) db.nextId = 0
    rw [show countChunks (setStatus (createDataSource db name ty url Status.processing).1
          db.nextId Status.failed) db.nextId
        = countChunks db db.nextId from rfl]
    exact countChunks_fresh db hWF.2
  · unfold statusOf
    rw [getSource_setStatus_self, getSource_create db name ty url Status.processing hWF.1]
    rfl
  · unfold historyOf
    rw [getSource_setStatus_self, getSource_create db name ty url Status.processing hWF.1]
    rfl

lemma persist_ok_state (db : DB) (name ty url : String)
    (staged : List Document) (failAt : Option Nat)
    (hWF : WFdb db) (hstaged : ∀ c ∈ staged, c.source = db.nextId)
    (hok : persistenceFails failAt staged.length = false) :
    (atomicPersist (createDataSource db name ty url Status.processing).1
        db.nextId staged failAt).2 = Except.ok staged.length ∧
    countChunks (atomicPersist (createDataSource db name ty url Status.processing).1
        db.nextId staged failAt).1 db.nextId = staged.length ∧
    statusOf (atomicPersist (createDataSource db name ty url Status.processing).1
        db.nextId staged failAt).1 db.nextId = some Status.completed ∧
    docCountOf (atomicPersist (createDataSource db name ty url Status.processing).1
        db.nextId staged failAt).1 db.nextId = some staged.length ∧
    historyOf (atomicPersist (createDataSource db name ty url Status.processing).1
        db.nextId staged failAt).1 db.nextId
      = some [Status.processing, Status.completed] := by
  rw [atomicPersist_ok _ _ _ _ hok]
  have hcount : countChunks
      { (createDataSource db name ty url Status.processing).1 with
        documents := (createDataSource db name ty url Status.processing).1.documents ++ staged }
      db.nextId = staged.length := by
    rw [countChunks_append _ _ _ hstaged]
    rw [show countChunks (createDataSource db name ty url Status.processing).1 db.nextId
        = countChunks db db.nextId from rfl]
    rw [countChunks_fresh db hWF.2]
    exact Nat.zero_add _
  have hget : getSource
      { (createDataSource db name ty url Status.processing).1 with
        documents := (createDataSource db name ty url Status.processing).1.documents ++ staged }
      db.nextId
      = some ⟨db.nextId, name, ty, url, Status.processing, 0, [Status.processing]⟩ := by
    rw [show getSource
        { (createDataSource db name ty url Status.processing).1 with
          documents := (createDataSource db name ty url Status.processing).1.documents ++ staged }
        db.nextId
        = getSource (createDataSource db name ty url Status.processing).1 db.nextId from rfl]
    exact getSource_create db name ty url Status.processing hWF.1
  refine ⟨rfl, ?_, ?_, ?_, ?_⟩
  · exact hcount
  · unfold statusOf
    rw [getSource_completeSource_self, hget]
    rfl
  · unfold docCountOf
    rw [getSource_completeSource_self, hget]
    rfl
  · unfold historyOf
    rw [getSource_completeSource_self, hget]
    rfl

end Lemmas

/-- Empty store: no sources, no documents, fresh id 0. -/
def db0 : DB := ⟨[], [], 0⟩

/-- A splitter instance returning the whole text as one chunk — the
behaviour of `RecursiveCharacterTextSplitter(chunk_size=1000, ...)` on any
nonempty text shorter than the chunk size. -/
def split1 : String → List String := fun s => [s]

/-- A fixed embedding instance (one-dimensional). -/
def embed1 : String → List ℚ := fun _ => [0]

/-- A fetch instance in which every URL fails with a network error. -/
def fetchFailAll : String → Except String String := fun _ =>
  Except.error "connection error"

/-- A fetch instance in which every URL yields the same small page. -/
def fetchOkAll : String → Except String String := fun _ =>
  Except.ok "hello world"

section ServiceShapes

lemma ingest_github_ok_eq (db : DB) (split : String → List String)
    (embed : String → List ℚ) (url name : String) (docs : List RawDoc)
    (failAt : Option Nat) :
    ingest_github_repo db split embed url name (Except.ok docs) failAt
      = atomicPersist (createDataSource db name "github" url Status.processing).1
          db.nextId (stageChunks split embed "github" db.nextId docs) failAt := rfl

lemma ingest_web_eq (db : DB) (split : String → List String)
    (embed : String → List ℚ) (urls : List String) (name : String)
    (fetch : String → Except String String) (failAt : Option Nat) :
    ingest_web_documents db split embed urls name fetch failAt
      = atomicPersist (createDataSource db name "web" "" Status.processing).1
          db.nextId
          (stageChunks split embed "web" db.nextId (acquireWebDocuments urls fetch))
          failAt := rfl

lemma perDoc_indices (split : String → List String) (embed : String → List ℚ)
    (tag : String) (sid : Nat) (d : RawDoc) :
    ((perDocChunks split embed tag sid d).map fun c => c.chunk_index)
      = List.range (split d.page_content).length := by
  unfold perDocChunks
  rw [List.map_map]
  exact List.enum_map_fst _

lemma stage_decomp (split : String → List String) (embed : String → List ℚ)
    (tag : String) (sid : Nat) :
    ∀ (docs : List RawDoc) (d : RawDoc), d ∈ docs →
      ∃ pre post, stageChunks split embed tag sid docs
        = pre ++ perDocChunks split embed tag sid d ++ post := by
  intro docs
  induction docs with
  | nil => intro d hd; exact absurd hd (List.not_mem_nil d)
  | cons a ds ih =>
    intro d hd
    rcases List.mem_cons.mp hd with rfl | hmem
    · exact ⟨[], stageChunks split embed tag sid ds, by simp [stageChunks]⟩
    · obtain ⟨pre, post, heq⟩ := ih d hmem
      refine ⟨perDocChunks split embed tag sid a ++ pre, post, ?_⟩
      show perDocChunks split embed tag sid a ++ stageChunks split embed tag sid ds = _
      rw [heq]
      simp [List.append_assoc]

lemma stage_mem (split : String → List String) (embed : String → List ℚ)
    (tag : String) (sid : Nat) :
    ∀ (docs : List RawDoc) (c : Document),
      c ∈ stageChunks split embed tag sid docs →
      ∃ d ∈ docs, c ∈ perDocChunks split embed tag sid d := by
  intro docs
  induction docs with
  | nil => intro c hc; simp [stageChunks] at hc
  | cons a ds ih =>
    intro c hc
    rcases List.mem_append.mp hc with h | h
    · exact ⟨a, List.mem_cons_self a ds, h⟩
    · obtain ⟨d, hd, hcd⟩ := ih c h
      exact ⟨d, List.mem_cons_of_mem a hd, hcd⟩

end ServiceShapes

/-- C1: For every ingestion run (repository or web), chunk persistence is
all-or-nothing. If any error occurs in the persistence step, the store
holds zero chunks for the run's source (never a count strictly between
zero and the staged total), the source's status is `failed`, and the
error is returned to the caller; when the run succeeds, the returned
count is exactly the number of persisted chunks for the source. -/
theorem ingest_chunk_persistence_all_or_nothing
    (db : DB) (split : String → List String) (embed : String → List ℚ)
    (url gname wname : String) (docs : List RawDoc) (urls : List String)
    (fetch : String → Except String String) (failAt : Option Nat)
    (hWF : WFdb db) :
    (∀ e, (ingest_github_repo db split embed url gname (Except.ok docs) failAt).2
        = Except.error e →
      countChunks (ingest_github_repo db split embed url gname (Except.ok docs) failAt).1
          db.nextId = 0
      ∧ statusOf (ingest_github_repo db split embed url gname (Except.ok docs) failAt).1
          db.nextId = some Status.failed)
    ∧ (∀ n, (ingest_github_repo db split embed url gname (Except.ok docs) failAt).2
        = Except.ok n →
      countChunks (ingest_github_repo db split embed url gname (Except.ok docs) failAt).1
          db.nextId = n)
    ∧ (∀ e, (ingest_web_documents db split embed urls wname fetch failAt).2
        = Except.error e →
      countChunks (ingest_web_documents db split embed urls wname fetch failAt).1
          db.nextId = 0
      ∧ statusOf (ingest_web_documents db split embed urls wname fetch failAt).1
          db.nextId = some Status.failed)
    ∧ (∀ n, (ingest_web_documents db split embed urls wname fetch failAt).2
        = Except.ok n →
      countChunks (ingest_web_documents db split embed urls wname fetch failAt).1
          db.nextId = n) := by
  rw [ingest_github_ok_eq, ingest_web_eq]
  have hstg := stageChunks_source split embed "github" db.nextId docs
  have hstw := stageChunks_source split embed "web" db.nextId
    (acquireWebDocuments urls fetch)
  refine ⟨?_, ?_, ?_, ?_⟩
  · intro e he
    cases hp : persistenceFails failAt
        (stageChunks split embed "github" db.nextId docs).length with
    | true =>
      obtain ⟨_, hc, hs, _⟩ :=
        persist_fail_state db gname "github" url _ failAt hWF hstg hp
      exact ⟨hc, hs⟩
    | false =>
      obtain ⟨h2, _, _, _, _⟩ :=
        persist_ok_state db gname "github" url _ failAt hWF hstg hp
      rw [h2] at he
      exact Except.noConfusion he
  · intro n hn
    cases hp : persistenceFails failAt
        (stageChunks split embed "github" db.nextId docs).length with
    | true =>
      obtain ⟨h2, _, _, _⟩ :=
        persist_fail_state db gname "github" url _ failAt hWF hstg hp
      rw [h2] at hn
      exact Except.noConfusion hn
    | false =>
      obtain ⟨h2, hc, _, _, _⟩ :=
        persist_ok_state db gname "github" url _ failAt hWF hstg hp
      rw [h2] at hn
      injection hn with h3
      rw [hc, h3]
  · intro e he
    cases hp : persistenceFails failAt
        (stageChunks split embed "web" db.nextId (acquireWebDocuments urls fetch)).length with
    | true =>
      obtain ⟨_, hc, hs, _⟩ :=
        persist_fail_state db wname "web" "" _ failAt hWF hstw hp
      exact ⟨hc, hs⟩
    | false =>
      obtain ⟨h2, _, _, _, _⟩ :=
        persist_ok_state db wname "web" "" _ failAt hWF hstw hp
      rw [h2] at he
      exact Except.noConfusion he
  · intro n hn
    cases hp : persistenceFails failAt
        (stageChunks split embed "web" db.nextId (acquireWebDocuments urls fetch)).length with
    | true =>
      obtain ⟨h2, _, _, _⟩ :=
        persist_fail_state db wname "web" "" _ failAt hWF hstw hp
      rw [h2] at hn
      exact Except.noConfusion hn
    | false =>
      obtain ⟨h2, hc, _, _, _⟩ :=
        persist_ok_state db wname "web" "" _ failAt hWF hstw hp
      rw [h2] at hn
      injection hn with h3
      rw [hc, h3]

/-- Witness for C1: on the empty store, with a persistence fault injected
at the first write, both a one-document repository run and a one-URL web
run leave zero chunks, a `failed` source row, and a propagated error. -/
theorem ingest_chunk_persistence_all_or_nothing_witness :
    WFdb db0
    ∧ (ingest_github_repo db0 split1 embed1 "https://h/r.git" "r"
        (Except.ok [⟨"alpha", "f.md"⟩]) (some 0)).2 = Except.error "persistence error"
    ∧ (countChunks (ingest_github_repo db0 split1 embed1 "https://h/r.git" "r"
          (Except.ok [⟨"alpha", "f.md"⟩]) (some 0)).1 0 = 0
       ∧ statusOf (ingest_github_repo db0 split1 embed1 "https://h/r.git" "r"
          (Except.ok [⟨"alpha", "f.md"⟩]) (some 0)).1 0 = some Status.failed)
    ∧ (ingest_web_documents db0 split1 embed1 ["https://h/p"] "w" fetchOkAll
        (some 0)).2 = Except.error "persistence error"
    ∧ (countChunks (ingest_web_documents db0 split1 embed1 ["https://h/p"] "w"
          fetchOkAll (some 0)).1 0 = 0
       ∧ statusOf (ingest_web_documents db0 split1 embed1 ["https://h/p"] "w"
          fetchOkAll (some 0)).1 0 = some Status.failed) :=
  ⟨⟨fun s hs => absurd hs (List.not_mem_nil s),
    fun d hd => absurd hd (List.not_mem_nil d)⟩,
   rfl,
   (ingest_chunk_persistence_all_or_nothing db0 split1 embed1
      "https://h/r.git" "r" "w" [⟨"alpha", "f.md"⟩] ["https://h/p"] fetchOkAll
      (some 0)
      ⟨fun s hs => absurd hs (List.not_mem_nil s),
       fun d hd => absurd hd (List.not_mem_nil d)⟩).1 "persistence error" rfl,
   rfl,
   (ingest_chunk_persistence_all_or_nothing db0 split1 embed1
      "https://h/r.git" "r" "w" [⟨"alpha", "f.md"⟩] ["https://h/p"] fetchOkAll
      (some 0)
      ⟨fun s hs => absurd hs (List.not_mem_nil s),
       fun d hd => absurd hd (List.not_mem_nil d)⟩).2.2.1 "persistence error" rfl⟩

lemma ingest_github_error_eq (db : DB) (split : String → List String)
    (embed : String → List ℚ) (url name e : String) (failAt : Option Nat) :
    ingest_github_repo db split embed url name (Except.error e) failAt
      = (setStatus (createDataSource db name "github" url Status.processing).1
           db.nextId Status.failed,
         Except.error e) := rfl

/-- C2 counterexample: a repository run that acquires two documents (each
yielding one chunk) persists two distinct chunks of the same source that
both carry `chunk_index = 0`, because `enumerate(chunks)` restarts at 0
for every document — so `(source, position_index)` is not unique across a
multi-document run. -/
theorem chunk_index_collision_two_documents :
    ((ingest_github_repo db0 split1 embed1 "https://h/r.git" "r"
        (Except.ok [⟨"alpha", "a.md"⟩, ⟨"beta", "b.md"⟩]) none).1.documents.map
          fun d => (d.source, d.chunk_index)) = [(0, 0), (0, 0)]
    ∧ ((ingest_github_repo db0 split1 embed1 "https://h/r.git" "r"
        (Except.ok [⟨"alpha", "a.md"⟩, ⟨"beta", "b.md"⟩]) none).1.documents.map
          fun d => d.content) = ["alpha", "beta"]
    ∧ statusOf (ingest_github_repo db0 split1 embed1 "https://h/r.git" "r"
        (Except.ok [⟨"alpha", "a.md"⟩, ⟨"beta", "b.md"⟩]) none).1 0
      = some Status.completed :=
  ⟨rfl, rfl, rfl⟩

/-- C2 amended: the position index is unique only per acquired document.
On a successful run the persisted chunks are exactly the staged ones; the
chunks staged for any single acquired document carry the distinct indices
`0, 1, …, n-1` (`n` the number of split segments), and each document's
block sits contiguously inside the run's staged sequence — so indices
restart at 0 with every new document of the same source. -/
theorem chunk_index_unique_only_within_each_document
    (db : DB) (split : String → List String) (embed : String → List ℚ)
    (url gname wname : String) (docs : List RawDoc) (urls : List String)
    (fetch : String → Except String String) (failAt : Option Nat) :
    (persistenceFails failAt
        (stageChunks split embed "github" db.nextId docs).length = false →
      (ingest_github_repo db split embed url gname (Except.ok docs) failAt).1.documents
        = db.documents ++ stageChunks split embed "github" db.nextId docs)
    ∧ (persistenceFails failAt
        (stageChunks split embed "web" db.nextId (acquireWebDocuments urls fetch)).length
          = false →
      (ingest_web_documents db split embed urls wname fetch failAt).1.documents
        = db.documents
            ++ stageChunks split embed "web" db.nextId (acquireWebDocuments urls fetch))
    ∧ (∀ (tag : String) (sid : Nat) (d : RawDoc), d ∈ docs →
        ((perDocChunks split embed tag sid d).map fun c => c.chunk_index)
            = List.range (split d.page_content).length
        ∧ ((perDocChunks split embed tag sid d).map fun c => c.chunk_index).Nodup
        ∧ ∃ pre post, stageChunks split embed tag sid docs
            = pre ++ perDocChunks split embed tag sid d ++ post) := by
  refine ⟨?_, ?_, ?_⟩
  · intro h
    rw [ingest_github_ok_eq, atomicPersist_ok _ _ _ _ h]
    rfl
  · intro h
    rw [ingest_web_eq, atomicPersist_ok _ _ _ _ h]
    rfl
  · intro tag sid d hd
    refine ⟨perDoc_indices split embed tag sid d, ?_,
      stage_decomp split embed tag sid docs d hd⟩
    rw [perDoc_indices split embed tag sid d]
    exact List.nodup_range _

/-- Witness for the amended C2 on a concrete two-document run. -/
theorem chunk_index_unique_only_within_each_document_witness :
    persistenceFails none
        (stageChunks split1 embed1 "github" 0
          [⟨"alpha", "a.md"⟩, ⟨"beta", "b.md"⟩]).length = false
    ∧ (ingest_github_repo db0 split1 embed1 "https://h/r.git" "r"
        (Except.ok [⟨"alpha", "a.md"⟩, ⟨"beta", "b.md"⟩]) none).1.documents
      = db0.documents
          ++ stageChunks split1 embed1 "github" 0 [⟨"alpha", "a.md"⟩, ⟨"beta", "b.md"⟩]
    ∧ (⟨"beta", "b.md"⟩ : RawDoc) ∈ [(⟨"alpha", "a.md"⟩ : RawDoc), ⟨"beta", "b.md"⟩]
    ∧ ((perDocChunks split1 embed1 "github" 0 ⟨"beta", "b.md"⟩).map
        fun c => c.chunk_index) = List.range 1
    ∧ ((perDocChunks split1 embed1 "github" 0 ⟨"beta", "b.md"⟩).map
        fun c => c.chunk_index).Nodup
    ∧ ∃ pre post,
        stageChunks split1 embed1 "github" 0 [⟨"alpha", "a.md"⟩, ⟨"beta", "b.md"⟩]
          = pre ++ perDocChunks split1 embed1 "github" 0 ⟨"beta", "b.md"⟩ ++ post :=
  ⟨rfl,
   (chunk_index_unique_only_within_each_document db0 split1 embed1
      "https://h/r.git" "r" "w" [⟨"alpha", "a.md"⟩, ⟨"beta", "b.md"⟩] [] fetchFailAll
      none).1 rfl,
   by decide,
   ((chunk_index_unique_only_within_each_document db0 split1 embed1
      "https://h/r.git" "r" "w" [⟨"alpha", "a.md"⟩, ⟨"beta", "b.md"⟩] [] fetchFailAll
      none).2.2 "github" 0 ⟨"beta", "b.md"⟩ (by decide)).1,
   ((chunk_index_unique_only_within_each_document db0 split1 embed1
      "https://h/r.git" "r" "w" [⟨"alpha", "a.md"⟩, ⟨"beta", "b.md"⟩] [] fetchFailAll
      none).2.2 "github" 0 ⟨"beta", "b.md"⟩ (by decide)).2.1,
   ((chunk_index_unique_only_within_each_document db0 split1 embed1
      "https://h/r.git" "r" "w" [⟨"alpha", "a.md"⟩, ⟨"beta", "b.md"⟩] [] fetchFailAll
      none).2.2 "github" 0 ⟨"beta", "b.md"⟩ (by decide)).2.2⟩

/-- C3 counterexample: a concrete ingestion run's source row records the
status history `[processing, completed]` — the row is created directly in
`'processing'` (the `objects.create` calls pass `status='processing'`
explicitly), so no ingestion-created source is ever observed in
`'pending'`. -/
theorem source_never_pending_counterexample :
    historyOf (ingest_github_repo db0 split1 embed1 "https://h/r.git" "r"
        (Except.ok []) none).1 0
      = some [Status.processing, Status.completed]
    ∧ Status.pending ∉ [Status.processing, Status.completed] :=
  ⟨rfl, by decide⟩

/-- C3 amended: every service ingestion run (repository or web) creates
its source row directly in `'processing'` — never `'pending'`, which is
only the unused model default — and ends it in exactly one terminal
status: the row's full observed status history is
`[processing, completed]` or `[processing, failed]`. -/
theorem source_lifecycle_processing_to_terminal
    (db : DB) (split : String → List String) (embed : String → List ℚ)
    (url gname wname : String) (cloneResult : Except String (List RawDoc))
    (urls : List String) (fetch : String → Except String String)
    (failAt : Option Nat) (hWF : WFdb db) :
    (historyOf (ingest_github_repo db split embed url gname cloneResult failAt).1
        db.nextId = some [Status.processing, Status.completed]
     ∨ historyOf (ingest_github_repo db split embed url gname cloneResult failAt).1
        db.nextId = some [Status.processing, Status.failed])
    ∧ (historyOf (ingest_web_documents db split embed urls wname fetch failAt).1
        db.nextId = some [Status.processing, Status.completed]
     ∨ historyOf (ingest_web_documents db split embed urls wname fetch failAt).1
        db.nextId = some [Status.processing, Status.failed]) := by
  constructor
  · cases cloneResult with
    | error e =>
      right
      rw [ingest_github_error_eq]
      unfold historyOf
      rw [getSource_setStatus_self,
          getSource_create db gname "github" url Status.processing hWF.1]
      rfl
    | ok docs =>
      have hstg := stageChunks_source split embed "github" db.nextId docs
      cases hp : persistenceFails failAt
          (stageChunks split embed "github" db.nextId docs).length with
      | true =>
        right
        rw [ingest_github_ok_eq]
        exact (persist_fail_state db gname "github" url _ failAt hWF hstg hp).2.2.2
      | false =>
        left
        rw [ingest_github_ok_eq]
        exact (persist_ok_state db gname "github" url _ failAt hWF hstg hp).2.2.2.2
  · have hstw := stageChunks_source split embed "web" db.nextId
      (acquireWebDocuments urls fetch)
    cases hp : persistenceFails failAt
        (stageChunks split embed "web" db.nextId (acquireWebDocuments urls fetch)).length with
    | true =>
      right
      rw [ingest_web_eq]
      exact (persist_fail_state db wname "web" "" _ failAt hWF hstw hp).2.2.2
    | false =>
      left
      rw [ingest_web_eq]
      exact (persist_ok_state db wname "web" "" _ failAt hWF hstw hp).2.2.2.2

/-- Witness for the amended C3 on concrete runs over the empty store. -/
theorem source_lifecycle_processing_to_terminal_witness :
    WFdb db0
    ∧ (historyOf (ingest_github_repo db0 split1 embed1 "https://h/r.git" "r"
          (Except.ok [⟨"alpha", "a.md"⟩]) none).1 0
        = some [Status.processing, Status.completed]
       ∨ historyOf (ingest_github_repo db0 split1 embed1 "https://h/r.git" "r"
          (Except.ok [⟨"alpha", "a.md"⟩]) none).1 0
        = some [Status.processing, Status.failed])
    ∧ (historyOf (ingest_web_documents db0 split1 embed1 ["https://h/p"] "w"
          fetchFailAll none).1 0
        = some [Status.processing, Status.completed]
       ∨ historyOf (ingest_web_documents db0 split1 embed1 ["https://h/p"] "w"
          fetchFailAll none).1 0
        = some [Status.processing, Status.failed]) :=
  ⟨⟨fun s hs => absurd hs (List.not_mem_nil s),
    fun d hd => absurd hd (List.not_mem_nil d)⟩,
   (source_lifecycle_processing_to_terminal db0 split1 embed1
      "https://h/r.git" "r" "w" (Except.ok [⟨"alpha", "a.md"⟩]) ["https://h/p"]
      fetchFailAll none
      ⟨fun s hs => absurd hs (List.not_mem_nil s),
       fun d hd => absurd hd (List.not_mem_nil d)⟩).1,
   (source_lifecycle_processing_to_terminal db0 split1 embed1
      "https://h/r.git" "r" "w" (Except.ok [⟨"alpha", "a.md"⟩]) ["https://h/p"]
      fetchFailAll none
      ⟨fun s hs => absurd hs (List.not_mem_nil s),
       fun d hd => absurd hd (List.not_mem_nil d)⟩).2⟩

lemma search_mem (db : DB) (l2 : List ℚ → List ℚ → ℚ) (q : List ℚ) (k : Nat)
    (th : ℚ) :
    ∀ r ∈ search_documents db l2 q k th,
      r.distance < th ∧ r.similarity_score = 1 - r.distance := by
  intro r hr
  simp only [search_documents] at hr
  obtain ⟨p, hp, rfl⟩ := List.mem_map.mp hr
  refine ⟨?_, rfl⟩
  have h1 : p ∈ List.insertionSort distanceLE
      ((db.documents.map fun d => (d, l2 d.embedding q)).filter fun p => p.2 < th) :=
    List.mem_of_mem_take hp
  have h2 : p ∈ (db.documents.map fun d => (d, l2 d.embedding q)).filter
      fun p => p.2 < th :=
    (List.perm_insertionSort distanceLE _).mem_iff.mp h1
  have h3 := List.mem_filter.mp h2
  exact of_decide_eq_true h3.2

/-- A concrete corpus for retrieval witnesses: one source owning two
chunks, whose (parametrically chosen) distances to any query are 1 and 2. -/
def dbSearchW : DB :=
  ⟨[⟨0, "S", "web", "", Status.completed, 2, [Status.processing, Status.completed]⟩],
   [⟨0, "one", [1], "web", "https://h/p", 0⟩,
    ⟨0, "two", [2], "web", "https://h/p", 1⟩], 1⟩

/-- A distance-operator instance reading the stored embedding's head. -/
def l2W : List ℚ → List ℚ → ℚ := fun e _ => e.headD 0

/-- C4: search returns only chunks whose distance is strictly below the
threshold, in ascending distance order (both as a pairwise statement and
index-wise: `i < j` implies `distance[i] ≤ distance[j]`), and at most `k`
results. -/
theorem search_results_filtered_sorted_bounded (db : DB)
    (l2 : List ℚ → List ℚ → ℚ) (q : List ℚ) (k : Nat) (th : ℚ) :
    (∀ r ∈ search_documents db l2 q k th, r.distance < th)
    ∧ (search_documents db l2 q k th).length ≤ k
    ∧ List.Pairwise (fun a b => a.distance ≤ b.distance)
        (search_documents db l2 q k th)
    ∧ ∀ (i j : Fin (search_documents db l2 q k th).length), i < j →
        ((search_documents db l2 q k th).get i).distance
          ≤ ((search_documents db l2 q k th).get j).distance := by
  have hsorted : (List.insertionSort distanceLE
      ((db.documents.map fun d => (d, l2 d.embedding q)).filter
        fun p => p.2 < th)).Sorted distanceLE :=
    List.sorted_insertionSort distanceLE _
  have htake : ((List.insertionSort distanceLE
      ((db.documents.map fun d => (d, l2 d.embedding q)).filter
        fun p => p.2 < th)).take k).Pairwise distanceLE :=
    hsorted.sublist (List.take_sublist k _)
  have hpw : List.Pairwise (fun a b => a.distance ≤ b.distance)
      (search_documents db l2 q k th) := by
    simp only [search_documents]
    exact List.pairwise_map.mpr htake
  refine ⟨fun r hr => (search_mem db l2 q k th r hr).1, ?_, hpw,
    fun i j hij => List.pairwise_iff_get.mp hpw i j hij⟩
  simp only [search_documents]
  rw [List.length_map, List.length_take]
  exact min_le_left _ _

/-- Witness for C4 on the concrete two-chunk corpus with `k = 2`,
threshold 5. -/
theorem search_results_filtered_sorted_bounded_witness :
    ((search_documents dbSearchW l2W [0] 2 5).get ⟨0, by decide⟩
        ∈ search_documents dbSearchW l2W [0] 2 5
      ∧ ((search_documents dbSearchW l2W [0] 2 5).get ⟨0, by decide⟩).distance < 5)
    ∧ (search_documents dbSearchW l2W [0] 2 5).length ≤ 2
    ∧ ((⟨0, by decide⟩ : Fin (search_documents dbSearchW l2W [0] 2 5).length)
          < (⟨1, by decide⟩ : Fin (search_documents dbSearchW l2W [0] 2 5).length)
        ∧ ((search_documents dbSearchW l2W [0] 2 5).get ⟨0, by decide⟩).distance
            ≤ ((search_documents dbSearchW l2W [0] 2 5).get ⟨1, by decide⟩).distance) :=
  ⟨⟨List.get_mem _ _ _,
    (search_results_filtered_sorted_bounded dbSearchW l2W [0] 2 5).1 _
      (List.get_mem _ _ _)⟩,
   (search_results_filtered_sorted_bounded dbSearchW l2W [0] 2 5).2.1,
   ⟨by decide,
    (search_results_filtered_sorted_bounded dbSearchW l2W [0] 2 5).2.2.2
      ⟨0, by decide⟩ ⟨1, by decide⟩ (by decide)⟩⟩

/-- C8: searching an empty corpus, or a corpus in which no chunk's
distance is below the threshold, returns the empty result sequence (a
value, never an error). -/
theorem search_empty_cases (db : DB) (l2 : List ℚ → List ℚ → ℚ) (q : List ℚ)
    (k : Nat) (th : ℚ) :
    (db.documents = [] → search_documents db l2 q k th = [])
    ∧ ((∀ d ∈ db.documents, ¬ l2 d.embedding q < th) →
        search_documents db l2 q k th = []) := by
  constructor
  · intro h
    simp only [search_documents]
    rw [h, List.map_nil, List.filter_nil,
        show List.insertionSort distanceLE ([] : List (Document × ℚ)) = [] from rfl,
        List.take_nil, List.map_nil]
  · intro h
    simp only [search_documents]
    have hfil : (db.documents.map fun d => (d, l2 d.embedding q)).filter
        (fun p => p.2 < th) = [] := by
      apply List.filter_eq_nil_iff.mpr
      intro p hp
      obtain ⟨d, hd, rfl⟩ := List.mem_map.mp hp
      simpa using h d hd
    rw [hfil,
        show List.insertionSort distanceLE ([] : List (Document × ℚ)) = [] from rfl,
        List.take_nil, List.map_nil]

/-- Witness for C8: the empty store, and the two-chunk corpus under a
threshold below every distance. -/
theorem search_empty_cases_witness :
    (db0.documents = [] ∧ search_documents db0 l2W [0] 5 1 = [])
    ∧ ((∀ d ∈ dbSearchW.documents, ¬ l2W d.embedding [0] < (1 : ℚ))
       ∧ search_documents dbSearchW l2W [0] 5 1 = []) :=
  ⟨⟨rfl, (search_empty_cases db0 l2W [0] 5 1).1 rfl⟩,
   ⟨by decide, (search_empty_cases dbSearchW l2W [0] 5 1).2 (by decide)⟩⟩

/-- C9: every search result's similarity score is exactly `1 - distance`
with no clamping, hence negative whenever the distance exceeds 1. -/
theorem similarity_is_one_minus_distance (db : DB)
    (l2 : List ℚ → List ℚ → ℚ) (q : List ℚ) (k : Nat) (th : ℚ) :
    ∀ r ∈ search_documents db l2 q k th,
      r.similarity_score = 1 - r.distance
      ∧ (1 < r.distance → r.similarity_score < 0) := by
  intro r hr
  have h := (search_mem db l2 q k th r hr).2
  refine ⟨h, fun h1 => ?_⟩
  rw [h]
  linarith

/-- Witness for C9: the second-ranked result sits at distance 2 (> 1) and
its similarity score, `1 - 2`, is negative. -/
theorem similarity_is_one_minus_distance_witness :
    ((search_documents dbSearchW l2W [0] 2 5).get ⟨1, by decide⟩
        ∈ search_documents dbSearchW l2W [0] 2 5)
    ∧ ((search_documents dbSearchW l2W [0] 2 5).get ⟨1, by decide⟩).similarity_score
        = 1 - ((search_documents dbSearchW l2W [0] 2 5).get ⟨1, by decide⟩).distance
    ∧ (1 : ℚ) < ((search_documents dbSearchW l2W [0] 2 5).get ⟨1, by decide⟩).distance
    ∧ ((search_documents dbSearchW l2W [0] 2 5).get ⟨1, by decide⟩).similarity_score
        < 0 :=
  ⟨List.get_mem _ _ _,
   (similarity_is_one_minus_distance dbSearchW l2W [0] 2 5 _ (List.get_mem _ _ _)).1,
   by decide,
   (similarity_is_one_minus_distance dbSearchW l2W [0] 2 5 _ (List.get_mem _ _ _)).2
     (by decide)⟩

lemma foldl_min_le (xs : List ℚ) :
    ∀ a : ℚ, xs.foldl min a ≤ a ∧ ∀ y ∈ xs, xs.foldl min a ≤ y := by
  induction xs with
  | nil =>
    intro a
    exact ⟨le_refl a, fun y hy => absurd hy (List.not_mem_nil y)⟩
  | cons x xs ih =>
    intro a
    constructor
    · exact le_trans (ih (min a x)).1 (min_le_left a x)
    · intro y hy
      rcases List.mem_cons.mp hy with rfl | hmem
      · exact le_trans (ih (min a y)).1 (min_le_right a y)
      · exact (ih (min a x)).2 y hmem

lemma foldl_min_mem (xs : List ℚ) : ∀ a : ℚ, xs.foldl min a ∈ a :: xs := by
  induction xs with
  | nil => intro a; exact List.mem_cons_self a []
  | cons x xs ih =>
    intro a
    have hfold : List.foldl min a (x :: xs) = List.foldl min (min a x) xs := rfl
    rw [hfold]
    rcases List.mem_cons.mp (ih (min a x)) with heq | hmem
    · rw [heq]
      rcases min_choice a x with h1 | h1
      · rw [h1]; exact List.mem_cons_self a (x :: xs)
      · rw [h1]; exact List.mem_cons_of_mem a (List.mem_cons_self x xs)
    · exact List.mem_cons_of_mem a (List.mem_cons_of_mem x hmem)

lemma foldl_max_ge (xs : List ℚ) :
    ∀ a : ℚ, a ≤ xs.foldl max a ∧ ∀ y ∈ xs, y ≤ xs.foldl max a := by
  induction xs with
  | nil =>
    intro a
    exact ⟨le_refl a, fun y hy => absurd hy (List.not_mem_nil y)⟩
  | cons x xs ih =>
    intro a
    constructor
    · exact le_trans (le_max_left a x) (ih (max a x)).1
    · intro y hy
      rcases List.mem_cons.mp hy with rfl | hmem
      · exact le_trans (le_max_right a y) (ih (max a y)).1
      · exact (ih (max a x)).2 y hmem

lemma foldl_max_mem (xs : List ℚ) : ∀ a : ℚ, xs.foldl max a ∈ a :: xs := by
  induction xs with
  | nil => intro a; exact List.mem_cons_self a []
  | cons x xs ih =>
    intro a
    have hfold : List.foldl max a (x :: xs) = List.foldl max (max a x) xs := rfl
    rw [hfold]
    rcases List.mem_cons.mp (ih (max a x)) with heq | hmem
    · rw [heq]
      rcases max_choice a x with h1 | h1
      · rw [h1]; exact List.mem_cons_self a (x :: xs)
      · rw [h1]; exact List.mem_cons_of_mem a (List.mem_cons_self x xs)
    · exact List.mem_cons_of_mem a (List.mem_cons_of_mem x hmem)

lemma listMin_le (s : ℚ) (rest : List ℚ) :
    ∀ y ∈ s :: rest, listMin (s :: rest) ≤ y := by
  intro y hy
  rcases List.mem_cons.mp hy with rfl | hmem
  · exact (foldl_min_le rest y).1
  · exact (foldl_min_le rest s).2 y hmem

lemma le_listMax (s : ℚ) (rest : List ℚ) :
    ∀ y ∈ s :: rest, y ≤ listMax (s :: rest) := by
  intro y hy
  rcases List.mem_cons.mp hy with rfl | hmem
  · exact (foldl_max_ge rest y).1
  · exact (foldl_max_ge rest s).2 y hmem

lemma listMin_mem (s : ℚ) (rest : List ℚ) : listMin (s :: rest) ∈ s :: rest :=
  foldl_min_mem rest s

lemma listMax_mem (s : ℚ) (rest : List ℚ) : listMax (s :: rest) ∈ s :: rest :=
  foldl_max_mem rest s

/-- C5: when retrieval yields no chunks, response composition returns the
fixed insufficient-knowledge sentinel verbatim (a value, not an error);
otherwise the response is the deterministic assembly `composeBody`: one
labeled excerpt per ranked chunk in rank order — each excerpt being its
label followed by the chunk content truncated to its first 800
characters — and a footer whose reported minimum and maximum similarity
scores genuinely bound (and occur among) the scores of the ranked
chunks. -/
theorem generate_response_sentinel_or_assembly (db : DB)
    (l2 : List ℚ → List ℚ → ℚ) (embed : String → List ℚ) (fmt : ℚ → String)
    (th : ℚ) (query : String) :
    (search_documents db l2 (embed query) 3 th = [] →
      generate_response db l2 embed fmt th query = insufficientMessage)
    ∧ (∀ docs, docs = search_documents db l2 (embed query) 3 th → docs ≠ [] →
        generate_response db l2 embed fmt th query = composeBody fmt query docs
        ∧ (docs.enum.map fun p => contextPart fmt p.1 p.2).length = docs.length
        ∧ (∀ i (hi : i < docs.length),
            contextPart fmt i (docs.get ⟨i, hi⟩)
              = contextLabel fmt i (docs.get ⟨i, hi⟩)
                ++ (docs.get ⟨i, hi⟩).page_content.take 800)
        ∧ (∀ d ∈ docs,
            listMin (docs.map fun x => x.similarity_score) ≤ d.similarity_score
            ∧ d.similarity_score ≤ listMax (docs.map fun x => x.similarity_score))
        ∧ listMin (docs.map fun x => x.similarity_score)
            ∈ (docs.map fun x => x.similarity_score)
        ∧ listMax (docs.map fun x => x.similarity_score)
            ∈ (docs.map fun x => x.similarity_score)) := by
  constructor
  · intro h
    simp only [generate_response]
    rw [h]
    rfl
  · intro docs hdocs hne
    have hge : generate_response db l2 embed fmt th query
        = if docs.isEmpty then insufficientMessage else composeBody fmt query docs := by
      rw [hdocs]
      rfl
    have hn : docs.isEmpty = false := by
      cases docs with
      | nil => exact absurd rfl hne
      | cons s rest => rfl
    refine ⟨?_, ?_, ?_, ?_, ?_, ?_⟩
    · rw [hge, hn]
      rfl
    · rw [List.length_map, List.enum_length]
    · intro i hi
      rfl
    · intro d hd
      cases docs with
      | nil => exact absurd rfl hne
      | cons s rest =>
        have hmem : d.similarity_score
            ∈ s.similarity_score :: rest.map fun x => x.similarity_score := by
          have := List.mem_map_of_mem (fun x => x.similarity_score) hd
          simpa using this
        exact ⟨listMin_le _ _ _ hmem, le_listMax _ _ _ hmem⟩
    · cases docs with
      | nil => exact absurd rfl hne
      | cons s rest => exact listMin_mem _ _
    · cases docs with
      | nil => exact absurd rfl hne
      | cons s rest => exact listMax_mem _ _

/-- A fixed formatting instance standing in for Python `:.2f`. -/
def fmtW : ℚ → String := fun _ => "0.00"

/-- Witness for C5: the empty corpus produces the sentinel; the two-chunk
corpus produces the assembled body with its excerpt/footer facts. -/
theorem generate_response_sentinel_or_assembly_witness :
    (search_documents db0 l2W (embed1 "q") 3 5 = []
      ∧ generate_response db0 l2W embed1 fmtW 5 "q" = insufficientMessage)
    ∧ (search_documents dbSearchW l2W (embed1 "q") 3 5 ≠ []
      ∧ generate_response dbSearchW l2W embed1 fmtW 5 "q"
          = composeBody fmtW "q" (search_documents dbSearchW l2W (embed1 "q") 3 5)
      ∧ ((search_documents dbSearchW l2W (embed1 "q") 3 5).enum.map
            fun p => contextPart fmtW p.1 p.2).length
          = (search_documents dbSearchW l2W (embed1 "q") 3 5).length
      ∧ (0 : Nat) < (search_documents dbSearchW l2W (embed1 "q") 3 5).length
      ∧ contextPart fmtW 0
            ((search_documents dbSearchW l2W (embed1 "q") 3 5).get ⟨0, by decide⟩)
          = contextLabel fmtW 0
              ((search_documents dbSearchW l2W (embed1 "q") 3 5).get ⟨0, by decide⟩)
            ++ ((search_documents dbSearchW l2W (embed1 "q") 3 5).get
                  ⟨0, by decide⟩).page_content.take 800
      ∧ listMin ((search_documents dbSearchW l2W (embed1 "q") 3 5).map
            fun x => x.similarity_score)
          ≤ ((search_documents dbSearchW l2W (embed1 "q") 3 5).get
              ⟨0, by decide⟩).similarity_score
      ∧ listMax ((search_documents dbSearchW l2W (embed1 "q") 3 5).map
            fun x => x.similarity_score)
          ∈ ((search_documents dbSearchW l2W (embed1 "q") 3 5).map
              fun x => x.similarity_score)) :=
  ⟨⟨rfl,
    (generate_response_sentinel_or_assembly db0 l2W embed1 fmtW 5 "q").1 rfl⟩,
   List.ne_nil_of_length_pos (by decide),
   ((generate_response_sentinel_or_assembly dbSearchW l2W embed1 fmtW 5 "q").2 _
      rfl (List.ne_nil_of_length_pos (by decide))).1,
   ((generate_response_sentinel_or_assembly dbSearchW l2W embed1 fmtW 5 "q").2 _
      rfl (List.ne_nil_of_length_pos (by decide))).2.1,
   by decide,
   ((generate_response_sentinel_or_assembly dbSearchW l2W embed1 fmtW 5 "q").2 _
      rfl (List.ne_nil_of_length_pos (by decide))).2.2.1 0 (by decide),
   (((generate_response_sentinel_or_assembly dbSearchW l2W embed1 fmtW 5 "q").2 _
      rfl (List.ne_nil_of_length_pos (by decide))).2.2.2.1 _
      (List.get_mem _ _ _)).1,
   ((generate_response_sentinel_or_assembly dbSearchW l2W embed1 fmtW 5 "q").2 _
      rfl (List.ne_nil_of_length_pos (by decide))).2.2.2.2.2⟩

lemma acquire_all_fail (urls : List String) (fetch : String → Except String String)
    (h : ∀ u ∈ urls, (fetch u).toOption = none) :
    acquireWebDocuments urls fetch = [] := by
  unfold acquireWebDocuments
  apply List.filterMap_eq_nil_iff.mpr
  intro u hu
  cases hf : fetch u with
  | error e => rfl
  | ok raw =>
    have := h u hu
    rw [hf] at this
    exact absurd this (by simp [Except.toOption])

lemma acquire_mem (urls : List String) (fetch : String → Except String String)
    (d : RawDoc) (hd : d ∈ acquireWebDocuments urls fetch) :
    d.origin ∈ urls ∧ (fetch d.origin).toOption ≠ none := by
  unfold acquireWebDocuments at hd
  obtain ⟨u, hu, hfu⟩ := List.mem_filterMap.mp hd
  cases hf : fetch u with
  | error e =>
    rw [hf] at hfu
    exact absurd hfu (by simp)
  | ok raw =>
    rw [hf] at hfu
    simp only [] at hfu
    by_cases hempty : cleanText raw = ""
    · rw [if_pos hempty] at hfu
      exact absurd hfu (by simp)
    · rw [if_neg hempty] at hfu
      have hd' : d = ⟨cleanText raw, u⟩ := (Option.some.injEq _ _).mp hfu.symm
      subst hd'
      refine ⟨hu, ?_⟩
      rw [hf]
      simp [Except.toOption]

lemma perDoc_origin (split : String → List String) (embed : String → List ℚ)
    (tag : String) (sid : Nat) (d : RawDoc) (c : Document)
    (hc : c ∈ perDocChunks split embed tag sid d) : c.origin = d.origin := by
  unfold perDocChunks at hc
  obtain ⟨ic, _, rfl⟩ := List.mem_map.mp hc
  rfl

/-- C6: during web ingestion a per-URL failure is absorbed: with no
injected persistence fault the call always returns a count (never an
error), every staged chunk originates from a URL of the batch whose fetch
succeeded, and when every URL fails the source still completes with chunk
count 0. -/
theorem web_per_url_failures_absorbed (db : DB) (split : String → List String)
    (embed : String → List ℚ) (urls : List String) (name : String)
    (fetch : String → Except String String) (hWF : WFdb db) :
    ((∀ u ∈ urls, (fetch u).toOption = none) →
      (ingest_web_documents db split embed urls name fetch none).2 = Except.ok 0
      ∧ statusOf (ingest_web_documents db split embed urls name fetch none).1
          db.nextId = some Status.completed
      ∧ countChunks (ingest_web_documents db split embed urls name fetch none).1
          db.nextId = 0)
    ∧ (ingest_web_documents db split embed urls name fetch none).2
        = Except.ok (stageChunks split embed "web" db.nextId
            (acquireWebDocuments urls fetch)).length
    ∧ (∀ c ∈ stageChunks split embed "web" db.nextId (acquireWebDocuments urls fetch),
        (fetch c.origin).toOption ≠ none ∧ c.origin ∈ urls) := by
  have hstw := stageChunks_source split embed "web" db.nextId
    (acquireWebDocuments urls fetch)
  have hok : persistenceFails none
      (stageChunks split embed "web" db.nextId (acquireWebDocuments urls fetch)).length
      = false := rfl
  refine ⟨?_, ?_, ?_⟩
  · intro hall
    have hacq := acquire_all_fail urls fetch hall
    rw [ingest_web_eq]
    rw [hacq] at hstw hok ⊢
    obtain ⟨h2, hc, hs, _, _⟩ :=
      persist_ok_state db name "web" "" (stageChunks split embed "web" db.nextId [])
        none hWF hstw hok
    exact ⟨h2, hs, hc⟩
  · rw [ingest_web_eq]
    exact (persist_ok_state db name "web" "" _ none hWF hstw hok).1
  · intro c hc
    obtain ⟨d, hd, hcd⟩ := stage_mem split embed "web" db.nextId _ c hc
    obtain ⟨hu, hfetch⟩ := acquire_mem urls fetch d hd
    rw [perDoc_origin split embed "web" db.nextId d c hcd]
    exact ⟨hfetch, hu⟩

/-- A fetch instance in which the first URL fails and every other URL
yields a small page. -/
def fetchMixed : String → Except String String := fun u =>
  if u = "https://h/a" then Except.error "connection error"
  else Except.ok "hello world"

/-- Witness for C6: a batch whose URLs all fail completes with 0 chunks;
a mixed batch yields a count and its one staged chunk comes from the
succeeding URL. -/
theorem web_per_url_failures_absorbed_witness :
    (∀ u ∈ ["https://h/a"], (fetchFailAll u).toOption = none)
    ∧ (ingest_web_documents db0 split1 embed1 ["https://h/a"] "w" fetchFailAll
        none).2 = Except.ok 0
    ∧ statusOf (ingest_web_documents db0 split1 embed1 ["https://h/a"] "w"
        fetchFailAll none).1 0 = some Status.completed
    ∧ countChunks (ingest_web_documents db0 split1 embed1 ["https://h/a"] "w"
        fetchFailAll none).1 0 = 0
    ∧ (ingest_web_documents db0 split1 embed1 ["https://h/a", "https://h/b"] "w"
        fetchMixed none).2
        = Except.ok (stageChunks split1 embed1 "web" 0
            (acquireWebDocuments ["https://h/a", "https://h/b"] fetchMixed)).length
    ∧ ((stageChunks split1 embed1 "web" 0
          (acquireWebDocuments ["https://h/a", "https://h/b"] fetchMixed)).get
            ⟨0, by decide⟩
        ∈ stageChunks split1 embed1 "web" 0
            (acquireWebDocuments ["https://h/a", "https://h/b"] fetchMixed))
    ∧ (fetchMixed ((stageChunks split1 embed1 "web" 0
          (acquireWebDocuments ["https://h/a", "https://h/b"] fetchMixed)).get
            ⟨0, by decide⟩).origin).toOption ≠ none
    ∧ ((stageChunks split1 embed1 "web" 0
          (acquireWebDocuments ["https://h/a", "https://h/b"] fetchMixed)).get
            ⟨0, by decide⟩).origin ∈ ["https://h/a", "https://h/b"] :=
  ⟨by decide,
   (web_per_url_failures_absorbed db0 split1 embed1 ["https://h/a"] "w" fetchFailAll
      ⟨fun s hs => absurd hs (List.not_mem_nil s),
       fun d hd => absurd hd (List.not_mem_nil d)⟩).1 (by decide) |>.1,
   (web_per_url_failures_absorbed db0 split1 embed1 ["https://h/a"] "w" fetchFailAll
      ⟨fun s hs => absurd hs (List.not_mem_nil s),
       fun d hd => absurd hd (List.not_mem_nil d)⟩).1 (by decide) |>.2.1,
   (web_per_url_failures_absorbed db0 split1 embed1 ["https://h/a"] "w" fetchFailAll
      ⟨fun s hs => absurd hs (List.not_mem_nil s),
       fun d hd => absurd hd (List.not_mem_nil d)⟩).1 (by decide) |>.2.2,
   (web_per_url_failures_absorbed db0 split1 embed1 ["https://h/a", "https://h/b"]
      "w" fetchMixed
      ⟨fun s hs => absurd hs (List.not_mem_nil s),
       fun d hd => absurd hd (List.not_mem_nil d)⟩).2.1,
   List.get_mem _ _ _,
   ((web_per_url_failures_absorbed db0 split1 embed1 ["https://h/a", "https://h/b"]
      "w" fetchMixed
      ⟨fun s hs => absurd hs (List.not_mem_nil s),
       fun d hd => absurd hd (List.not_mem_nil d)⟩).2.2 _ (List.get_mem _ _ _)).1,
   ((web_per_url_failures_absorbed db0 split1 embed1 ["https://h/a", "https://h/b"]
      "w" fetchMixed
      ⟨fun s hs => absurd hs (List.not_mem_nil s),
       fun d hd => absurd hd (List.not_mem_nil d)⟩).2.2 _ (List.get_mem _ _ _)).2⟩

lemma filter_ne_then_eq (sid sid' : Nat) (hne : sid' ≠ sid) :
    ∀ l : List Document,
      (l.filter fun d => ¬ d.source = sid).filter (fun d => d.source = sid')
        = l.filter (fun d => d.source = sid') := by
  intro l
  rw [List.filter_filter]
  apply List.filter_congr
  intro d _
  by_cases h : d.source = sid'
  · simp [h]
    exact hne
  · simp [h]

/-- C7: deleting an existing source removes exactly that source's chunks
and returns their count — afterwards the source owns zero chunks while
every other source's chunk count is untouched — and deleting a
nonexistent source id raises the not-found error instead of succeeding or
failing silently. -/
theorem delete_source_documents_exact (db : DB) (sid : Nat) :
    (∀ s, getSource db sid = some s →
      delete_source_documents db sid
          = Except.ok
              ({ db with documents := db.documents.filter fun d => ¬ d.source = sid },
               countChunks db sid)
      ∧ countChunks
          { db with documents := db.documents.filter fun d => ¬ d.source = sid }
          sid = 0
      ∧ ∀ sid', sid' ≠ sid →
          countChunks
            { db with documents := db.documents.filter fun d => ¬ d.source = sid }
            sid' = countChunks db sid')
    ∧ (getSource db sid = none →
        delete_source_documents db sid
          = Except.error ("Data source with id " ++ toString sid ++ " not found")) := by
  constructor
  · intro s hs
    refine ⟨?_, ?_, ?_⟩
    · unfold delete_source_documents
      rw [hs]
    · unfold countChunks
      rw [List.length_eq_zero]
      apply List.filter_eq_nil_iff.mpr
      intro d hd
      have := (List.mem_filter.mp hd).2
      simp only [decide_eq_true_eq] at this ⊢
      exact this
    · intro sid' hne
      unfold countChunks
      rw [filter_ne_then_eq sid sid' hne]
  · intro h
    unfold delete_source_documents
    rw [h]

/-- A concrete store for the deletion witness: two sources, the first
owning two chunks and the second owning one. -/
def dbDelW : DB :=
  ⟨[⟨0, "S0", "github", "u0", Status.completed, 2,
      [Status.processing, Status.completed]⟩,
    ⟨1, "S1", "web", "", Status.completed, 1,
      [Status.processing, Status.completed]⟩],
   [⟨0, "c0", [0], "github", "f", 0⟩,
    ⟨0, "c1", [0], "github", "g", 1⟩,
    ⟨1, "d0", [0], "web", "u", 0⟩], 2⟩

/-- Witness for C7 on the concrete two-source store. -/
theorem delete_source_documents_exact_witness :
    getSource dbDelW 0
      = some ⟨0, "S0", "github", "u0", Status.completed, 2,
          [Status.processing, Status.completed]⟩
    ∧ countChunks dbDelW 0 = 2
    ∧ delete_source_documents dbDelW 0
        = Except.ok
            ({ dbDelW with documents := dbDelW.documents.filter fun d => ¬ d.source = 0 },
             countChunks dbDelW 0)
    ∧ countChunks
        { dbDelW with documents := dbDelW.documents.filter fun d => ¬ d.source = 0 }
        0 = 0
    ∧ ((1 : Nat) ≠ 0
       ∧ countChunks
          { dbDelW with documents := dbDelW.documents.filter fun d => ¬ d.source = 0 }
          1 = countChunks dbDelW 1)
    ∧ getSource dbDelW 5 = none
    ∧ delete_source_documents dbDelW 5
        = Except.error ("Data source with id " ++ toString 5 ++ " not found") :=
  ⟨rfl,
   rfl,
   ((delete_source_documents_exact dbDelW 0).1 _ rfl).1,
   ((delete_source_documents_exact dbDelW 0).1 _ rfl).2.1,
   ⟨by decide, ((delete_source_documents_exact dbDelW 0).1 _ rfl).2.2 1 (by decide)⟩,
   rfl,
   (delete_source_documents_exact dbDelW 5).2 rfl⟩

lemma WFdb_create (db : DB) (n t u : String) (st : Status) (hWF : WFdb db) :
    WFdb (createDataSource db n t u st).1 := by
  constructor
  · intro s hs
    rcases List.mem_append.mp hs with h | h
    · exact Nat.lt_trans (hWF.1 s h) (Nat.lt_succ_self _)
    · rw [List.mem_singleton.mp h]
      exact Nat.lt_succ_self _
  · intro d hd
    exact Nat.lt_trans (hWF.2 d hd) (Nat.lt_succ_self _)

lemma getSource_setStatus_other (db : DB) (sid sid' : Nat) (st : Status)
    (hne : sid' ≠ sid) :
    getSource (setStatus db sid st) sid' = getSource db sid' := by
  unfold setStatus updSource getSource
  exact find?_upd_other _ _ _ _ (fun s => rfl) hne

lemma getSource_completeSource_other (db : DB) (sid sid' : Nat) (n : Nat)
    (hne : sid' ≠ sid) :
    getSource (completeSource db sid n) sid' = getSource db sid' := by
  unfold completeSource updSource getSource
  exact find?_upd_other _ _ _ _ (fun s => rfl) hne

lemma getSource_ingest_github_other (db : DB) (split : String → List String)
    (embed : String → List ℚ) (url name : String)
    (cloneResult : Except String (List RawDoc)) (failAt : Option Nat) (sid : Nat)
    (hne : sid ≠ db.nextId) :
    getSource (ingest_github_repo db split embed url name cloneResult failAt).1 sid
      = getSource db sid := by
  cases cloneResult with
  | error e =>
    rw [ingest_github_error_eq]
    show getSource (setStatus _ db.nextId Status.failed) sid = _
    rw [getSource_setStatus_other _ _ _ _ hne]
    exact getSource_create_other db name "github" url Status.processing sid hne
  | ok docs =>
    rw [ingest_github_ok_eq]
    cases hp : persistenceFails failAt
        (stageChunks split embed "github" db.nextId docs).length with
    | true =>
      rw [atomicPersist_fail _ _ _ _ hp]
      show getSource (setStatus _ db.nextId Status.failed) sid = _
      rw [getSource_setStatus_other _ _ _ _ hne]
      exact getSource_create_other db name "github" url Status.processing sid hne
    | false =>
      rw [atomicPersist_ok _ _ _ _ hp]
      show getSource (completeSource _ db.nextId _) sid = _
      rw [getSource_completeSource_other _ _ _ _ hne]
      exact getSource_create_other db name "github" url Status.processing sid hne

lemma getSource_ingest_web_other (db : DB) (split : String → List String)
    (embed : String → List ℚ) (urls : List String) (name : String)
    (fetch : String → Except String String) (failAt : Option Nat) (sid : Nat)
    (hne : sid ≠ db.nextId) :
    getSource (ingest_web_documents db split embed urls name fetch failAt).1 sid
      = getSource db sid := by
  rw [ingest_web_eq]
  cases hp : persistenceFails failAt
      (stageChunks split embed "web" db.nextId (acquireWebDocuments urls fetch)).length with
  | true =>
    rw [atomicPersist_fail _ _ _ _ hp]
    show getSource (setStatus _ db.nextId Status.failed) sid = _
    rw [getSource_setStatus_other _ _ _ _ hne]
    exact getSource_create_other db name "web" "" Status.processing sid hne
  | false =>
    rw [atomicPersist_ok _ _ _ _ hp]
    show getSource (completeSource _ db.nextId _) sid = _
    rw [getSource_completeSource_other _ _ _ _ hne]
    exact getSource_create_other db name "web" "" Status.processing sid hne

lemma sources_length_ingest_github (db : DB) (split : String → List String)
    (embed : String → List ℚ) (url name : String)
    (cloneResult : Except String (List RawDoc)) (failAt : Option Nat) :
    (ingest_github_repo db split embed url name cloneResult failAt).1.sources.length
      = db.sources.length + 1 := by
  cases cloneResult with
  | error e =>
    rw [ingest_github_error_eq]
    simp [setStatus, updSource, createDataSource]
  | ok docs =>
    rw [ingest_github_ok_eq]
    cases hp : persistenceFails failAt
        (stageChunks split embed "github" db.nextId docs).length with
    | true =>
      rw [atomicPersist_fail _ _ _ _ hp]
      simp [setStatus, updSource, createDataSource]
    | false =>
      rw [atomicPersist_ok _ _ _ _ hp]
      simp [completeSource, updSource, createDataSource]

lemma sources_length_ingest_web (db : DB) (split : String → List String)
    (embed : String → List ℚ) (urls : List String) (name : String)
    (fetch : String → Except String String) (failAt : Option Nat) :
    (ingest_web_documents db split embed urls name fetch failAt).1.sources.length
      = db.sources.length + 1 := by
  rw [ingest_web_eq]
  cases hp : persistenceFails failAt
      (stageChunks split embed "web" db.nextId (acquireWebDocuments urls fetch)).length with
  | true =>
    rw [atomicPersist_fail _ _ _ _ hp]
    simp [setStatus, updSource, createDataSource]
  | false =>
    rw [atomicPersist_ok _ _ _ _ hp]
    simp [completeSource, updSource, createDataSource]

lemma view_github_ok (db : DB) (split : String → List String)
    (embed : String → List ℚ) (url name : String)
    (cloneResult : Except String (List RawDoc)) (failAt : Option Nat) (m : Nat)
    (h : (ingest_github_repo (createDataSource db name "github" url Status.processing).1
        split embed url name cloneResult failAt).2 = Except.ok m) :
    view_ingest_github_repo db split embed url name cloneResult failAt
      = ((ingest_github_repo (createDataSource db name "github" url Status.processing).1
            split embed url name cloneResult failAt).1,
         Except.ok (db.nextId, m)) := by
  unfold view_ingest_github_repo
  simp only [h]
  rfl

lemma view_web_ok (db : DB) (split : String → List String)
    (embed : String → List ℚ) (urls : List String) (name : String)
    (fetch : String → Except String String) (failAt : Option Nat) (m : Nat)
    (h : (ingest_web_documents (createDataSource db name "web" "" Status.processing).1
        split embed urls name fetch failAt).2 = Except.ok m) :
    view_ingest_web_documents db split embed urls name fetch failAt
      = ((ingest_web_documents (createDataSource db name "web" "" Status.processing).1
            split embed urls name fetch failAt).1,
         Except.ok (db.nextId, m)) := by
  unfold view_ingest_web_documents
  simp only [h]
  rfl

lemma view_github_error (db : DB) (split : String → List String)
    (embed : String → List ℚ) (url name : String)
    (cloneResult : Except String (List RawDoc)) (failAt : Option Nat) (e : String)
    (h : (ingest_github_repo (createDataSource db name "github" url Status.processing).1
        split embed url name cloneResult failAt).2 = Except.error e) :
    (view_ingest_github_repo db split embed url name cloneResult failAt).2
      = Except.error e := by
  unfold view_ingest_github_repo
  simp only [h]

lemma view_web_error (db : DB) (split : String → List String)
    (embed : String → List ℚ) (urls : List String) (name : String)
    (fetch : String → Except String String) (failAt : Option Nat) (e : String)
    (h : (ingest_web_documents (createDataSource db name "web" "" Status.processing).1
        split embed urls name fetch failAt).2 = Except.error e) :
    (view_ingest_web_documents db split embed urls name fetch failAt).2
      = Except.error e := by
  unfold view_ingest_web_documents
  simp only [h]

/-- C10: each successful call of the repository or web ingestion HTTP
endpoint leaves TWO `DataSource` rows for the one ingestion: the returned
id names the handler-created row, which is still in `'processing'` with
`document_count = 0` and was never updated after creation, while the
service-created row (the next id) is `'completed'` and carries the
returned chunk count; the source table grew by exactly two rows. -/
theorem endpoint_duplicate_datasource_rows (db : DB)
    (split : String → List String) (embed : String → List ℚ)
    (url gname wname : String) (docs : List RawDoc) (urls : List String)
    (fetch : String → Except String String) (failAt : Option Nat) (hWF : WFdb db) :
    (∀ aid n,
      (view_ingest_github_repo db split embed url gname (Except.ok docs) failAt).2
          = Except.ok (aid, n) →
      aid = db.nextId
      ∧ statusOf (view_ingest_github_repo db split embed url gname
          (Except.ok docs) failAt).1 aid = some Status.processing
      ∧ docCountOf (view_ingest_github_repo db split embed url gname
          (Except.ok docs) failAt).1 aid = some 0
      ∧ historyOf (view_ingest_github_repo db split embed url gname
          (Except.ok docs) failAt).1 aid = some [Status.processing]
      ∧ statusOf (view_ingest_github_repo db split embed url gname
          (Except.ok docs) failAt).1 (db.nextId + 1) = some Status.completed
      ∧ docCountOf (view_ingest_github_repo db split embed url gname
          (Except.ok docs) failAt).1 (db.nextId + 1) = some n
      ∧ (view_ingest_github_repo db split embed url gname
          (Except.ok docs) failAt).1.sources.length = db.sources.length + 2)
    ∧ (∀ aid n,
      (view_ingest_web_documents db split embed urls wname fetch failAt).2
          = Except.ok (aid, n) →
      aid = db.nextId
      ∧ statusOf (view_ingest_web_documents db split embed urls wname
          fetch failAt).1 aid = some Status.processing
      ∧ docCountOf (view_ingest_web_documents db split embed urls wname
          fetch failAt).1 aid = some 0
      ∧ historyOf (view_ingest_web_documents db split embed urls wname
          fetch failAt).1 aid = some [Status.processing]
      ∧ statusOf (view_ingest_web_documents db split embed urls wname
          fetch failAt).1 (db.nextId + 1) = some Status.completed
      ∧ docCountOf (view_ingest_web_documents db split embed urls wname
          fetch failAt).1 (db.nextId + 1) = some n
      ∧ (view_ingest_web_documents db split embed urls wname
          fetch failAt).1.sources.length = db.sources.length + 2) := by
  constructor
  · intro aid n h
    cases hrun : (ingest_github_repo
        (createDataSource db gname "github" url Status.processing).1
        split embed url gname (Except.ok docs) failAt).2 with
    | error e =>
      rw [view_github_error db split embed url gname (Except.ok docs) failAt e hrun]
        at h
      exact Except.noConfusion h
    | ok m =>
      have hview := view_github_ok db split embed url gname (Except.ok docs) failAt
        m hrun
      rw [hview] at h
      have h' : Except.ok (db.nextId, m) = Except.ok (aid, n) := h
      injection h' with hpair
      have haid : db.nextId = aid := congrArg Prod.fst hpair
      have hnm : m = n := congrArg Prod.snd hpair
      subst haid
      subst hnm
      rw [hview]
      have hWF1 : WFdb (createDataSource db gname "github" url Status.processing).1 :=
        WFdb_create db gname "github" url Status.processing hWF
      have hne : db.nextId
          ≠ (createDataSource db gname "github" url Status.processing).1.nextId :=
        Nat.ne_of_lt (Nat.lt_succ_self _)
      have hother := getSource_ingest_github_other
        (createDataSource db gname "github" url Status.processing).1
        split embed url gname (Except.ok docs) failAt db.nextId hne
      have hA := getSource_create db gname "github" url Status.processing hWF.1
      have hst1 := stageChunks_source split embed "github"
        (createDataSource db gname "github" url Status.processing).1.nextId docs
      rw [ingest_github_ok_eq] at hrun
      cases hp : persistenceFails failAt
          (stageChunks split embed "github"
            (createDataSource db gname "github" url Status.processing).1.nextId
            docs).length with
      | true =>
        obtain ⟨h2, _, _, _⟩ := persist_fail_state
          (createDataSource db gname "github" url Status.processing).1
          gname "github" url _ failAt hWF1 hst1 hp
        rw [h2] at hrun
        exact Except.noConfusion hrun
      | false =>
        obtain ⟨h2, _, hs, hdc, _⟩ := persist_ok_state
          (createDataSource db gname "github" url Status.processing).1
          gname "github" url _ failAt hWF1 hst1 hp
        rw [h2] at hrun
        injection hrun with hlen
        refine ⟨rfl, ?_, ?_, ?_, ?_, ?_, ?_⟩
        · unfold statusOf
          rw [hother, hA]
          rfl
        · unfold docCountOf
          rw [hother, hA]
          rfl
        · unfold historyOf
          rw [hother, hA]
          rfl
        · rw [ingest_github_ok_eq]
          exact hs
        · rw [ingest_github_ok_eq, ← hlen]
          exact hdc
        · rw [sources_length_ingest_github]
          simp [createDataSource]
  · intro aid n h
    cases hrun : (ingest_web_documents
        (createDataSource db wname "web" "" Status.processing).1
        split embed urls wname fetch failAt).2 with
    | error e =>
      rw [view_web_error db split embed urls wname fetch failAt e hrun] at h
      exact Except.noConfusion h
    | ok m =>
      have hview := view_web_ok db split embed urls wname fetch failAt m hrun
      rw [hview] at h
      have h' : Except.ok (db.nextId, m) = Except.ok (aid, n) := h
      injection h' with hpair
      have haid : db.nextId = aid := congrArg Prod.fst hpair
      have hnm : m = n := congrArg Prod.snd hpair
      subst haid
      subst hnm
      rw [hview]
      have hWF1 : WFdb (createDataSource db wname "web" "" Status.processing).1 :=
        WFdb_create db wname "web" "" Status.processing hWF
      have hne : db.nextId
          ≠ (createDataSource db wname "web" "" Status.processing).1.nextId :=
        Nat.ne_of_lt (Nat.lt_succ_self _)
      have hother := getSource_ingest_web_other
        (createDataSource db wname "web" "" Status.processing).1
        split embed urls wname fetch failAt db.nextId hne
      have hA := getSource_create db wname "web" "" Status.processing hWF.1
      have hst1 := stageChunks_source split embed "web"
        (createDataSource db wname "web" "" Status.processing).1.nextId
        (acquireWebDocuments urls fetch)
      rw [ingest_web_eq] at hrun
      cases hp : persistenceFails failAt
          (stageChunks split embed "web"
            (createDataSource db wname "web" "" Status.processing).1.nextId
            (acquireWebDocuments urls fetch)).length with
      | true =>
        obtain ⟨h2, _, _, _⟩ := persist_fail_state
          (createDataSource db wname "web" "" Status.processing).1
          wname "web" "" _ failAt hWF1 hst1 hp
        rw [h2] at hrun
        exact Except.noConfusion hrun
      | false =>
        obtain ⟨h2, _, hs, hdc, _⟩ := persist_ok_state
          (createDataSource db wname "web" "" Status.processing).1
          wname "web" "" _ failAt hWF1 hst1 hp
        rw [h2] at hrun
        injection hrun with hlen
        refine ⟨rfl, ?_, ?_, ?_, ?_, ?_, ?_⟩
        · unfold statusOf
          rw [hother, hA]
          rfl
        · unfold docCountOf
          rw [hother, hA]
          rfl
        · unfold historyOf
          rw [hother, hA]
          rfl
        · rw [ingest_web_eq]
          exact hs
        · rw [ingest_web_eq, ← hlen]
          exact hdc
        · rw [sources_length_ingest_web]
          simp [createDataSource]

/-- Witness for C10: a successful one-document repository ingestion and a
successful one-URL web ingestion through the endpoints, over the empty
store. -/
theorem endpoint_duplicate_datasource_rows_witness :
    (view_ingest_github_repo db0 split1 embed1 "https://h/r.git" "r"
        (Except.ok [⟨"alpha", "a.md"⟩]) none).2 = Except.ok (0, 1)
    ∧ statusOf (view_ingest_github_repo db0 split1 embed1 "https://h/r.git" "r"
        (Except.ok [⟨"alpha", "a.md"⟩]) none).1 0 = some Status.processing
    ∧ docCountOf (view_ingest_github_repo db0 split1 embed1 "https://h/r.git" "r"
        (Except.ok [⟨"alpha", "a.md"⟩]) none).1 0 = some 0
    ∧ historyOf (view_ingest_github_repo db0 split1 embed1 "https://h/r.git" "r"
        (Except.ok [⟨"alpha", "a.md"⟩]) none).1 0 = some [Status.processing]
    ∧ statusOf (view_ingest_github_repo db0 split1 embed1 "https://h/r.git" "r"
        (Except.ok [⟨"alpha", "a.md"⟩]) none).1 1 = some Status.completed
    ∧ docCountOf (view_ingest_github_repo db0 split1 embed1 "https://h/r.git" "r"
        (Except.ok [⟨"alpha", "a.md"⟩]) none).1 1 = some 1
    ∧ (view_ingest_github_repo db0 split1 embed1 "https://h/r.git" "r"
        (Except.ok [⟨"alpha", "a.md"⟩]) none).1.sources.length = 2
    ∧ (view_ingest_web_documents db0 split1 embed1 ["https://h/p"] "w"
        fetchOkAll none).2 = Except.ok (0, 1)
    ∧ statusOf (view_ingest_web_documents db0 split1 embed1 ["https://h/p"] "w"
        fetchOkAll none).1 0 = some Status.processing
    ∧ statusOf (view_ingest_web_documents db0 split1 embed1 ["https://h/p"] "w"
        fetchOkAll none).1 1 = some Status.completed :=
  ⟨rfl,
   ((endpoint_duplicate_datasource_rows db0 split1 embed1 "https://h/r.git" "r" "w"
      [⟨"alpha", "a.md"⟩] ["https://h/p"] fetchOkAll none
      ⟨fun s hs => absurd hs (List.not_mem_nil s),
       fun d hd => absurd hd (List.not_mem_nil d)⟩).1 0 1 rfl).2.1,
   ((endpoint_duplicate_datasource_rows db0 split1 embed1 "https://h/r.git" "r" "w"
      [⟨"alpha", "a.md"⟩] ["https://h/p"] fetchOkAll none
      ⟨fun s hs => absurd hs (List.not_mem_nil s),
       fun d hd => absurd hd (List.not_mem_nil d)⟩).1 0 1 rfl).2.2.1,
   ((endpoint_duplicate_datasource_rows db0 split1 embed1 "https://h/r.git" "r" "w"
      [⟨"alpha", "a.md"⟩] ["https://h/p"] fetchOkAll none
      ⟨fun s hs => absurd hs (List.not_mem_nil s),
       fun d hd => absurd hd (List.not_mem_nil d)⟩).1 0 1 rfl).2.2.2.1,
   ((endpoint_duplicate_datasource_rows db0 split1 embed1 "https://h/r.git" "r" "w"
      [⟨"alpha", "a.md"⟩] ["https://h/p"] fetchOkAll none
      ⟨fun s hs => absurd hs (List.not_mem_nil s),
       fun d hd => absurd hd (List.not_mem_nil d)⟩).1 0 1 rfl).2.2.2.2.1,
   ((endpoint_duplicate_datasource_rows db0 split1 embed1 "https://h/r.git" "r" "w"
      [⟨"alpha", "a.md"⟩] ["https://h/p"] fetchOkAll none
      ⟨fun s hs => absurd hs (List.not_mem_nil s),
       fun d hd => absurd hd (List.not_mem_nil d)⟩).1 0 1 rfl).2.2.2.2.2.1,
   ((endpoint_duplicate_datasource_rows db0 split1 embed1 "https://h/r.git" "r" "w"
      [⟨"alpha", "a.md"⟩] ["https://h/p"] fetchOkAll none
      ⟨fun s hs => absurd hs (List.not_mem_nil s),
       fun d hd => absurd hd (List.not_mem_nil d)⟩).1 0 1 rfl).2.2.2.2.2.2,
   rfl,
   ((endpoint_duplicate_datasource_rows db0 split1 embed1 "https://h/r.git" "r" "w"
      [⟨"alpha", "a.md"⟩] ["https://h/p"] fetchOkAll none
      ⟨fun s hs => absurd hs (List.not_mem_nil s),
       fun d hd => absurd hd (List.not_mem_nil d)⟩).2 0 1 rfl).2.1,
   ((endpoint_duplicate_datasource_rows db0 split1 embed1 "https://h/r.git" "r" "w"
      [⟨"alpha", "a.md"⟩] ["https://h/p"] fetchOkAll none
      ⟨fun s hs => absurd hs (List.not_mem_nil s),
       fun d hd => absurd hd (List.not_mem_nil d)⟩).2 0 1 rfl).2.2.2.2.1⟩

end TeamB
